import Mathlib

/-!
Shallow embedding of the discussion-board web application (single source file
main.go): a PostgreSQL-backed CRUD service with four HTTP routes built on the
gin framework.  The relational store is modelled as an in-memory state (lists
of rows plus the next SERIAL values); each route handler becomes a pure
function from the store state (and request inputs) to a response, paired with
the successor state for the writing routes.  Store-connectivity failures are
outside the model, so the 500-on-query-error branches that merely propagate a
broken connection are unreachable here; error responses that the handlers
produce from the data itself (integer-parse failures of the id parameter,
missing rows, foreign-key violations, duplicate tables) are modelled
explicitly.  Timestamps (SQL CURRENT_TIMESTAMP) are supplied as an explicit
natural-number clock argument to the writing handlers.
-/

/-! ### Model of the Go standard-library URL parser

The list handler calls url.Parse from the Go standard library (an external
dependency, not part of this repository) and reads the Host field of the
result.  The model below follows the documented behaviour of url.Parse on the
relevant path: cut the fragment at the first hash sign, reject control
characters, extract the scheme, cut the query at the first question mark,
extract the authority after a double slash, strip user information at the
last at sign, and validate the host (character set, optional numeric port,
percent escapes).  Simplifications, each noted in place: user-information
validation, bracketed (IPv6) host internals, and escape errors inside the
fragment are not modelled, and a few rarely used host punctuation characters
accepted by Go are not in the allowed set.  Crucially, url.Parse can fail
(for example on an input that starts with a colon: missing protocol scheme),
and on failure it returns a nil pointer together with the error. -/

/-- A control byte in the sense of the Go URL parser: below space, or DEL. -/
def isCTL (c : Char) : Bool := c.toNat < 0x20 || c.toNat == 0x7f

/-- Lower-case an ASCII letter, leave everything else unchanged. -/
def lowerChar (c : Char) : Char :=
  if 'A' ≤ c && c ≤ 'Z' then Char.ofNat (c.toNat + 32) else c

/-- Hexadecimal digit test, both cases. -/
def isHexDigit (c : Char) : Bool :=
  c.isDigit || ('a' ≤ c && c ≤ 'f') || ('A' ≤ c && c ≤ 'F')

/-- Every percent sign is followed by two hexadecimal digits. -/
def validEscapes : List Char → Bool
  | [] => true
  | '%' :: a :: b :: rest => isHexDigit a && isHexDigit b && validEscapes rest
  | '%' :: _ => false
  | _ :: rest => validEscapes rest

/-- Split a character list at the first occurrence of a character: the part
before it, and, when the character occurs, the part after it. -/
def splitFirst (ch : Char) : List Char → List Char × Option (List Char)
  | [] => ([], none)
  | c :: cs =>
    if c == ch then ([], some cs)
    else
      let p := splitFirst ch cs
      (c :: p.1, p.2)

/-- Split a character list at the last occurrence of a character. -/
def splitLastAt (ch : Char) (l : List Char) : Option (List Char × List Char) :=
  match splitFirst ch l.reverse with
  | (_, none) => none
  | (revAfter, some revBefore) => some (revBefore.reverse, revAfter.reverse)

/-- Scheme extraction, following getScheme of the Go URL parser: an alphabetic
character starts a scheme, digits and plus, minus, dot may continue one, a
colon ends it; a colon as the very first character is the error
missing protocol scheme, encoded as none. -/
def getSchemeAux (orig : List Char) (seen : List Char) :
    List Char → Option (List Char × List Char)
  | [] => some ([], orig)
  | c :: cs =>
    if c.isAlpha then getSchemeAux orig (c :: seen) cs
    else if c.isDigit || c == '+' || c == '-' || c == '.' then
      if seen.isEmpty then some ([], orig) else getSchemeAux orig (c :: seen) cs
    else if c == ':' then
      if seen.isEmpty then none else some (seen.reverse, cs)
    else some ([], orig)

/-- Characters the Go URL parser accepts unescaped inside a host component
(alphanumerics, the unreserved marks, most sub-delimiters, colon, brackets,
the percent sign of an escape, and any non-ASCII byte).  A few host
punctuation characters Go also accepts are omitted here. -/
def isHostChar (c : Char) : Bool :=
  c.isAlphanum || c == '.' || c == '-' || c == '_' || c == '~' || c == '!' ||
  c == '$' || c == '&' || c == '(' || c == ')' || c == '*' || c == '+' ||
  c == ',' || c == ';' || c == '=' || c == ':' || c == '%' || c == '[' ||
  c == ']' || c.toNat ≥ 0x80

/-- After the last colon of a non-bracketed host, only digits may follow
(the optional port). -/
def portOk (host : List Char) : Bool :=
  match splitLastAt ':' host with
  | none => true
  | some (_, port) => port.all (fun c => c.isDigit)

/-- Host validation, following parseHost of the Go URL parser: a host that
starts with an opening bracket must contain a closing bracket followed by at
most a numeric port (the bracket internals are not validated in this model);
otherwise every character must be acceptable, percent escapes must be
well-formed, and anything after the last colon must be numeric. -/
def parseHost (host : List Char) : Option (List Char) :=
  match host with
  | '[' :: _ =>
    match splitLastAt ']' host with
    | none => none
    | some (_, after) =>
      match after with
      | [] => some host
      | ':' :: port => if port.all (fun c => c.isDigit) then some host else none
      | _ => none
  | _ =>
    if validEscapes host && portOk host && host.all isHostChar then some host
    else none

/-- Authority parsing, following parseAuthority of the Go URL parser: user
information before the last at sign is stripped (its character validation is
not modelled), the remainder is the host. -/
def parseAuthority (auth : List Char) : Option (List Char) :=
  match splitLastAt '@' auth with
  | none => parseHost auth
  | some (_, hostPart) => parseHost hostPart

/-- The fields of the parsed URL that this application can observe. -/
structure GoURL where
  scheme : String
  host : String
  path : String
deriving DecidableEq

/-- Model of url.Parse from the Go standard library (see the section comment
above for scope and simplifications).  none models the nil-pointer-plus-error
return of the Go function. -/
def urlParse (s : String) : Option GoURL :=
  let beforeFrag := (splitFirst '#' s.data).1
  if beforeFrag.any isCTL then none
  else if beforeFrag == ['*'] then some { scheme := "", host := "", path := "*" }
  else
    match getSchemeAux beforeFrag [] beforeFrag with
    | none => none
    | some (sch, afterScheme) =>
      let scheme := String.mk (sch.map lowerChar)
      let rest := (splitFirst '?' afterScheme).1
      if ¬ (['/'].isPrefixOf rest) then
        if scheme ≠ "" then some { scheme := scheme, host := "", path := String.mk rest }
        else
          if (splitFirst '/' rest).1.any (fun c => c == ':') then none
          else if validEscapes rest then
            some { scheme := scheme, host := "", path := String.mk rest }
          else none
      else if (['/', '/'].isPrefixOf rest) &&
          (scheme ≠ "" || ¬ (['/', '/', '/'].isPrefixOf rest)) then
        let auth0 := rest.drop 2
        let authSplit := splitFirst '/' auth0
        let pathRest := match authSplit.2 with
          | none => ([] : List Char)
          | some t => '/' :: t
        match parseAuthority authSplit.1 with
        | none => none
        | some host =>
          if validEscapes pathRest then
            some { scheme := scheme, host := String.mk host, path := String.mk pathRest }
          else none
      else
        if validEscapes rest then some { scheme := scheme, host := "", path := String.mk rest }
        else none

/-! ### Data model: table rows and store state -/

/-- A row of the posts table (columns id, title, link, content, created_at). -/
structure PostRow where
  id : Nat
  title : String
  link : String
  content : String
  createdAt : Nat
deriving DecidableEq

/-- A row of the comments table (columns id, content, post_id, created_at). -/
structure CommentRow where
  id : Nat
  content : String
  postId : Nat
  createdAt : Nat
deriving DecidableEq

/-- The store state: the two tables plus the next value of each SERIAL
primary-key sequence. -/
structure DB where
  posts : List PostRow
  comments : List CommentRow
  nextPostId : Nat
  nextCommentId : Nat
deriving DecidableEq

/-- The Comment view structure of main.go (fields ID, Content, PostID,
CreatedAt). -/
structure Comment where
  ID : Nat
  Content : String
  PostID : Nat
  CreatedAt : Nat
deriving DecidableEq

/-- The Post view structure of main.go (fields ID, Title, Link, Host, Content,
CreatedAt, CommentCount, Comments).  Fields a handler does not assign keep the
Go zero value: empty string, zero, empty list. -/
structure Post where
  ID : Nat
  Title : String
  Link : String
  Host : String
  Content : String
  CreatedAt : Nat
  CommentCount : Nat
  Comments : List Comment
deriving DecidableEq

/-! ### PostgreSQL helpers -/

/-- PostgreSQL whitespace accepted around an integer literal. -/
def isPgSpace (c : Char) : Bool :=
  c == ' ' || c == '\t' || c == '\n' || c == '\r' ||
  c.toNat == 0x0b || c.toNat == 0x0c

/-- Fold a digit list into a natural number. -/
def digitsToNat (ds : List Char) : Nat :=
  ds.foldl (fun a c => a * 10 + (c.toNat - 48)) 0

/-- How PostgreSQL reads a text parameter bound to an integer column:
optional surrounding whitespace, an optional sign, at least one digit, and an
int4 range check.  none models the error
invalid input syntax for type integer (or the out-of-range error). -/
def pgParseInt4 (s : String) : Option Int :=
  let cs := s.data.dropWhile isPgSpace
  let signed : Option (Bool × List Char) :=
    match cs with
    | '-' :: rest => some (true, rest)
    | '+' :: rest => some (false, rest)
    | rest => some (false, rest)
  match signed with
  | none => none
  | some (neg, body) =>
    let ds := body.takeWhile (fun c => c.isDigit)
    let tail := body.dropWhile (fun c => c.isDigit)
    if ds.isEmpty || ¬ (tail.all isPgSpace) then none
    else
      let v : Int := if neg then -(digitsToNat ds : Int) else (digitsToNat ds : Int)
      if -(2 ^ 31) ≤ v && v ≤ 2 ^ 31 - 1 then some v else none

/-- Error text of the driver when a non-integer string is bound to an integer
parameter (the real message also quotes the offending literal). -/
def pgIntErrorMsg : String := "pq: invalid input syntax for type integer"

/-- Error text of the driver when a VARCHAR(255) value is too long. -/
def pgTooLongMsg : String := "pq: value too long for type character varying(255)"

/-- Error text of the driver on a foreign-key violation for comments.post_id. -/
def pgFkMsg : String :=
  "pq: insert or update on table \"comments\" violates foreign key constraint"

/-! ### Ordering relations used by the ORDER BY created_at DESC queries -/

/-- Descending creation-time order on post rows. -/
def postsDescOrder : PostRow → PostRow → Prop :=
  fun a b => b.createdAt ≤ a.createdAt

instance : DecidableRel postsDescOrder :=
  fun a b => Nat.decLe b.createdAt a.createdAt

instance : IsTotal PostRow postsDescOrder :=
  ⟨fun a b => Nat.le_total b.createdAt a.createdAt⟩

instance : IsTrans PostRow postsDescOrder :=
  ⟨fun _ _ _ h1 h2 => Nat.le_trans h2 h1⟩

/-- Descending creation-time order on comment rows. -/
def commentsDescOrder : CommentRow → CommentRow → Prop :=
  fun a b => b.createdAt ≤ a.createdAt

instance : DecidableRel commentsDescOrder :=
  fun a b => Nat.decLe b.createdAt a.createdAt

instance : IsTotal CommentRow commentsDescOrder :=
  ⟨fun a b => Nat.le_total b.createdAt a.createdAt⟩

instance : IsTrans CommentRow commentsDescOrder :=
  ⟨fun _ _ _ h1 h2 => Nat.le_trans h2 h1⟩

/-! ### The four route handlers -/

/-- Models the count query
SELECT COUNT(*) FROM comments WHERE post_id = 1 (parameterized), issued with
the integer ID field of a scanned post row. -/
def countComments (db : DB) (postID : Nat) : Nat :=
  (db.comments.filter (fun c => c.postId == postID)).length

/-- Result of the statement pair
u, _ := url.Parse(post.Link); post.Host = u.Host: when the parse fails, the
error is discarded, u is nil, and reading u.Host is a nil-pointer
dereference, that is, a runtime panic. -/
inductive HostResult where
  | ok (host : String)
  | nilPanic
deriving DecidableEq

/-- Host derivation of the list handler (main.go lines 153 to 154). -/
def deriveHost (link : String) : HostResult :=
  match urlParse link with
  | some u => .ok u.host
  | none => .nilPanic

/-- The Post view the list handler assembles for one scanned row, given that
the host derivation did not panic: Host from the link, CommentCount from the
count query, Comments left at the zero value. -/
def viewPost (db : DB) (r : PostRow) : Post :=
  { ID := r.id, Title := r.title, Link := r.link,
    Host := (match deriveHost r.link with | .ok h => h | .nilPanic => ""),
    Content := r.content, CreatedAt := r.createdAt,
    CommentCount := countComments db r.id, Comments := [] }

/-- The row loop of the list handler: builds the view of every scanned row in
order, aborting with none at the first row whose host derivation panics. -/
def buildPosts (db : DB) : List PostRow → Option (List Post)
  | [] => some []
  | r :: rs =>
    match deriveHost r.link with
    | .nilPanic => none
    | .ok _ => (buildPosts db rs).map (fun tail => viewPost db r :: tail)

/-- Response of the list route.  The store-error 500 branches of the handler
are unreachable in the in-memory store model; panicked records the nil
dereference on a failed link parse (the gin recovery middleware turns the
panic into an empty 500 response). -/
inductive ListResponse where
  | html (posts : List Post)
  | panicked
deriving DecidableEq

/-- The GET / handler (main.go lines 131 to 174): query the posts ordered by
created_at descending, derive each Host, attach each comment count, render
the index template. -/
def listPosts (db : DB) : ListResponse :=
  match buildPosts db (List.insertionSort postsDescOrder db.posts) with
  | none => .panicked
  | some ps => .html ps

/-- Response of the create-post route: a 302 redirect or a JSON error body
with the given status. -/
inductive CreatePostResponse where
  | redirect (location : String)
  | json (status : Nat) (error : String)
deriving DecidableEq

/-- The POST /new handler (main.go lines 177 to 188): insert the form fields
as a new posts row with the next SERIAL id and the current timestamp, then
redirect to the list.  The store rejects title or link values longer than the
VARCHAR(255) columns; content is TEXT and unbounded. -/
def createPost (db : DB) (title content link : String) (now : Nat) :
    CreatePostResponse × DB :=
  if title.length > 255 || link.length > 255 then (.json 500 pgTooLongMsg, db)
  else
    (.redirect "/",
      { db with
          posts := db.posts ++
            [{ id := db.nextPostId, title := title, link := link,
               content := content, createdAt := now }],
          nextPostId := db.nextPostId + 1 })

/-- Response of the post-detail route: a 200 HTML render of the post view or
a JSON error body with the given status. -/
inductive PostDetailResponse where
  | html (post : Post)
  | json (status : Nat) (error : String)
deriving DecidableEq

/-- Builds one Comment view of the detail handler: ID, Content, CreatedAt are
scanned from the row, PostID is assigned from the ID of the enclosing post
(main.go line 225). -/
def viewComment (postID : Nat) (c : CommentRow) : Comment :=
  { ID := c.id, Content := c.content, PostID := postID, CreatedAt := c.createdAt }

/-- The GET /post/:id handler (main.go lines 191 to 238): the raw path
parameter is bound to the integer id column, so a non-integer parameter makes
the query itself fail (500); a missing row is the distinct no-rows signal
(404 with body error: Post not found); otherwise the comments of the post are
queried ordered by created_at descending and the detail template is rendered.
The handler never assigns Host or CommentCount, which keep the zero value. -/
def getPost (db : DB) (idStr : String) : PostDetailResponse :=
  match pgParseInt4 idStr with
  | none => .json 500 pgIntErrorMsg
  | some n =>
    match db.posts.find? (fun p => ((p.id : Int) == n)) with
    | none => .json 404 "Post not found"
    | some row =>
      let crows := List.insertionSort commentsDescOrder
        (db.comments.filter (fun c => ((c.postId : Int) == n)))
      .html { ID := row.id, Title := row.title, Link := row.link,
              Host := "", Content := row.content, CreatedAt := row.createdAt,
              CommentCount := 0, Comments := crows.map (viewComment row.id) }

/-- Response of the create-comment route: a 302 redirect back to the post
detail or a JSON error body with the given status. -/
inductive CreateCommentResponse where
  | redirect (location : String)
  | json (status : Nat) (error : String)
deriving DecidableEq

/-- The POST /post/:id/comment handler (main.go lines 241 to 250): the raw
path parameter is bound to the integer post_id column (non-integer values
fail the insert), the foreign-key constraint rejects a post_id that matches
no posts row, and a successful insert appends the comment row and redirects.
On any error the store state is unchanged. -/
def createComment (db : DB) (idStr content : String) (now : Nat) :
    CreateCommentResponse × DB :=
  match pgParseInt4 idStr with
  | none => (.json 500 pgIntErrorMsg, db)
  | some n =>
    if db.posts.any (fun p => ((p.id : Int) == n)) then
      (.redirect ("/post/" ++ idStr),
        { db with
            comments := db.comments ++
              [{ id := db.nextCommentId, content := content,
                 postId := n.toNat, createdAt := now }],
            nextCommentId := db.nextCommentId + 1 })
    else (.json 500 pgFkMsg, db)

/-! ### Schema initialization -/

/-- The catalog of existing tables: name and the statement that created it. -/
structure Catalog where
  tables : List (String × String)
deriving DecidableEq

/-- Models the existence check
SELECT EXISTS (SELECT FROM information_schema.tables WHERE table_schema =
public AND table_name = $1). -/
def tableExists (cat : Catalog) (name : String) : Bool :=
  cat.tables.any (fun t => t.1 == name)

/-- The creation statement of the posts table (main.go lines 66 to 74,
inline SQL comments elided). -/
def postsTableQuery : String :=
  "CREATE TABLE posts (id SERIAL PRIMARY KEY, title VARCHAR(255) NOT NULL, " ++
  "link VARCHAR(255) NOT NULL DEFAULT \x27\x27, content TEXT NOT NULL, " ++
  "created_at TIMESTAMP DEFAULT CURRENT_TIMESTAMP);"

/-- The creation statement of the comments table (main.go lines 76 to 84,
inline SQL comments elided). -/
def commentsTableQuery : String :=
  "CREATE TABLE comments (id SERIAL PRIMARY KEY, content TEXT NOT NULL, " ++
  "post_id INTEGER NOT NULL, created_at TIMESTAMP DEFAULT CURRENT_TIMESTAMP, " ++
  "FOREIGN KEY (post_id) REFERENCES posts(id));"

/-- Executing a CREATE TABLE statement: fails when a relation of that name
already exists, otherwise records the new table. -/
def execCreate (cat : Catalog) (name query : String) : Except String Catalog :=
  if tableExists cat name then
    .error ("pq: relation \"" ++ name ++ "\" already exists")
  else .ok { tables := cat.tables ++ [(name, query)] }

/-- createTable of main.go (lines 39 to 61): check the catalog for the table
name and execute the creation statement only when it is absent. -/
def createTable (cat : Catalog) (tableName createQuery : String) :
    Except String Catalog :=
  if tableExists cat tableName then .ok cat
  else execCreate cat tableName createQuery

/-- createTables of main.go (lines 64 to 92): ensure the posts table, then
the comments table. -/
def createTables (cat : Catalog) : Except String Catalog := do
  let c1 ← createTable cat "posts" postsTableQuery
  createTable c1 "comments" commentsTableQuery

/-- Folding the create-comment handler over a list of (content, timestamp)
pairs, all against the same path parameter: the store state after submitting
the comments one by one. -/
def runCreateComments (db : DB) (idStr : String) (items : List (String × Nat)) : DB :=
  items.foldl (fun d it => (createComment d idStr it.1 it.2).2) db

/-! ### Helper lemmas -/

/-- When the row loop of the list handler completes without a panic, its
output is exactly the per-row view, in row order. -/
theorem buildPosts_eq_map (db : DB) :
    ∀ {rows : List PostRow} {ps : List Post},
      buildPosts db rows = some ps → ps = rows.map (viewPost db) := by
  intro rows
  induction rows with
  | nil =>
    intro ps h
    simp only [buildPosts, Option.some.injEq] at h
    simp [h.symm]
  | cons r rs ih =>
    intro ps h
    simp only [buildPosts] at h
    cases hd : deriveHost r.link with
    | nilPanic => rw [hd] at h; exact absurd h (by simp)
    | ok hh =>
      rw [hd] at h
      cases hb : buildPosts db rs with
      | none => rw [hb] at h; exact absurd h (by simp)
      | some tail =>
        rw [hb] at h
        simp only [Option.map_some', Option.some.injEq] at h
        rw [← h, List.map_cons, ih hb]

/-- When no row of the loop panics, the loop completes. -/
theorem buildPosts_isSome (db : DB) :
    ∀ {rows : List PostRow},
      (∀ r ∈ rows, deriveHost r.link ≠ .nilPanic) →
      buildPosts db rows = some (rows.map (viewPost db)) := by
  intro rows
  induction rows with
  | nil => intro _; simp [buildPosts]
  | cons r rs ih =>
    intro hall
    have hr := hall r (List.mem_cons_self r rs)
    cases hd : deriveHost r.link with
    | nilPanic => exact absurd hd hr
    | ok hh =>
      have hrs := ih (fun q hq => hall q (List.mem_cons_of_mem r hq))
      simp [buildPosts, hd, hrs]

/-- A successful list response is the per-row view of the rows sorted by
descending creation time. -/
theorem listPosts_html_spec (db : DB) (ps : List Post)
    (h : listPosts db = .html ps) :
    ps = (List.insertionSort postsDescOrder db.posts).map (viewPost db) := by
  simp only [listPosts] at h
  cases hb : buildPosts db (List.insertionSort postsDescOrder db.posts) with
  | none => rw [hb] at h; exact absurd h (by simp)
  | some qs =>
    rw [hb] at h
    simp only [ListResponse.html.injEq] at h
    rw [← h]
    exact buildPosts_eq_map db hb

/-- Characterization of a successful post-detail response: the id parameter
parsed, a row matched, and the rendered post is assembled from that row with
its filtered and sorted comments; Host and CommentCount keep the zero value. -/
theorem getPost_html_spec (db : DB) (s : String) (p : Post)
    (h : getPost db s = .html p) :
    ∃ n row, pgParseInt4 s = some n ∧
      db.posts.find? (fun q => ((q.id : Int) == n)) = some row ∧
      row ∈ db.posts ∧ (row.id : Int) = n ∧
      p = { ID := row.id, Title := row.title, Link := row.link, Host := "",
            Content := row.content, CreatedAt := row.createdAt,
            CommentCount := 0,
            Comments := (List.insertionSort commentsDescOrder
              (db.comments.filter (fun c => ((c.postId : Int) == n)))).map
              (viewComment row.id) } := by
  simp only [getPost] at h
  split at h
  next => exact absurd h (by simp)
  next n hn =>
    split at h
    next => exact absurd h (by simp)
    next row hf =>
      simp only [PostDetailResponse.html.injEq] at h
      have hpred := List.find?_some hf
      have hid : (row.id : Int) = n := by simpa using hpred
      exact ⟨n, row, hn, hf, List.mem_of_find?_eq_some hf, hid, h.symm⟩

/-- find? skips a block of rows on which the predicate is false. -/
theorem find?_append_of_none {α : Type} (p : α → Bool) :
    ∀ (l1 l2 : List α), (∀ a ∈ l1, p a = false) →
      List.find? p (l1 ++ l2) = List.find? p l2 := by
  intro l1
  induction l1 with
  | nil => intro l2 _; rfl
  | cons a l ih =>
    intro l2 hall
    have ha := hall a (List.mem_cons_self a l)
    simp only [List.cons_append, List.find?, ha]
    exact ih l2 (fun b hb => hall b (List.mem_cons_of_mem a hb))

/-- Submitting a batch of comments against an existing post: the posts table
is untouched and the comment count of that post grows by exactly the batch
size (every insert passes the foreign-key check). -/
theorem runCreateComments_spec (pid : Nat) (s : String)
    (hs : pgParseInt4 s = some (pid : Int)) :
    ∀ (items : List (String × Nat)) (db : DB), (∃ p ∈ db.posts, p.id = pid) →
      (runCreateComments db s items).posts = db.posts ∧
      countComments (runCreateComments db s items) pid =
        countComments db pid + items.length := by
  intro items
  induction items with
  | nil => intro db _; simp [runCreateComments]
  | cons it its ih =>
    intro db hp
    have hany : db.posts.any (fun p => ((p.id : Int) == (pid : Int))) = true := by
      obtain ⟨p, hpmem, hpid⟩ := hp
      exact List.any_eq_true.mpr ⟨p, hpmem, by simp [hpid]⟩
    have hstep : (createComment db s it.1 it.2).2 =
        { db with
            comments := db.comments ++
              [{ id := db.nextCommentId, content := it.1,
                 postId := pid, createdAt := it.2 }],
            nextCommentId := db.nextCommentId + 1 } := by
      simp [createComment, hs, hany]
    have hfold : runCreateComments db s (it :: its) =
        runCreateComments ((createComment db s it.1 it.2).2) s its := rfl
    rw [hfold, hstep]
    have hcount : countComments
        { db with
            comments := db.comments ++
              [{ id := db.nextCommentId, content := it.1,
                 postId := pid, createdAt := it.2 }],
            nextCommentId := db.nextCommentId + 1 } pid =
        countComments db pid + 1 := by
      simp [countComments]
    obtain ⟨hposts, hcnt⟩ := ih
      { db with
          comments := db.comments ++
            [{ id := db.nextCommentId, content := it.1,
               postId := pid, createdAt := it.2 }],
          nextCommentId := db.nextCommentId + 1 }
      (by simpa using hp)
    refine ⟨by simpa using hposts, ?_⟩
    rw [hcnt, hcount]
    simp [Nat.add_assoc, Nat.add_comm 1 its.length]

/-- A table recorded by createTable stays recorded, and the table it was
asked about is recorded afterwards. -/
theorem createTable_ok_exists (cat : Catalog) (name query : String)
    {cat2 : Catalog} (h : createTable cat name query = .ok cat2) :
    tableExists cat2 name = true ∧
      ∀ m, tableExists cat m = true → tableExists cat2 m = true := by
  simp only [createTable, execCreate] at h
  by_cases hex : tableExists cat name = true
  · rw [if_pos hex] at h
    simp only [Except.ok.injEq] at h
    exact ⟨h ▸ hex, fun m hm => h ▸ hm⟩
  · rw [if_neg hex, if_neg hex] at h
    simp only [Except.ok.injEq] at h
    constructor
    · rw [← h]; simp [tableExists]
    · intro m hm
      rw [← h]
      simp only [tableExists, List.any_append, Bool.or_eq_true]
      exact Or.inl hm

/-- Comparing two natural numbers after casting to the integers is the same
boolean as comparing them directly. -/
theorem natCast_beq_natCast (a b : Nat) : ((a : Int) == (b : Int)) = (a == b) := by
  rw [Bool.eq_iff_iff, beq_iff_eq, beq_iff_eq, Int.natCast_inj]

/-- When no stored link panics the host derivation, the list handler renders
the sorted per-row views. -/
theorem listPosts_of_no_panic (db : DB)
    (hall : ∀ r ∈ db.posts, deriveHost r.link ≠ .nilPanic) :
    listPosts db =
      .html ((List.insertionSort postsDescOrder db.posts).map (viewPost db)) := by
  have hsome := buildPosts_isSome db
    (fun r hr => hall r
      ((List.perm_insertionSort postsDescOrder db.posts).mem_iff.mp hr))
  simp [listPosts, hsome]

/-! ### Example stores shared by the witnesses -/

/-- A store holding a single post with an empty link and no comments. -/
def dbOnePost : DB :=
  { posts := [{ id := 1, title := "t", link := "", content := "c", createdAt := 0 }],
    comments := [], nextPostId := 2, nextCommentId := 1 }

/-- A store holding two posts with distinct creation times, listed in
ascending order so that the descending sort is visible. -/
def dbTwoPosts : DB :=
  { posts := [{ id := 1, title := "a", link := "", content := "x", createdAt := 3 },
              { id := 2, title := "b", link := "", content := "y", createdAt := 5 }],
    comments := [], nextPostId := 3, nextCommentId := 1 }

/-- A store holding one post with two comments out of creation order, plus a
comment row attached to a different post id. -/
def dbWithComments : DB :=
  { posts := [{ id := 1, title := "a", link := "", content := "x", createdAt := 0 }],
    comments := [{ id := 1, content := "hello", postId := 1, createdAt := 2 },
                 { id := 2, content := "world", postId := 1, createdAt := 7 },
                 { id := 3, content := "zzz", postId := 2, createdAt := 9 }],
    nextPostId := 2, nextCommentId := 4 }

/-! ### Claims -/

/-- C2 (recorded as a code defect): the list handler is claimed to degrade a
failed link parse silently to an empty Host, but the code discards the error
of url.Parse and dereferences the returned nil pointer, so the request
panics instead of completing normally.  This theorem evaluates the model at
the failing input: a store whose single post has the link consisting of one
colon, which url.Parse rejects with missing protocol scheme. -/
theorem c2_parse_failure_panics :
    deriveHost ":" = HostResult.nilPanic ∧
    listPosts ⟨[⟨1, "t", ":", "c", 0⟩], [], 2, 1⟩ = ListResponse.panicked := by
  decide

/-- C3: for an integer id (post identifiers are integers; the claim ranges
over values of the id column, while non-numeric path strings are the subject
of C9) with no matching posts row, the detail handler answers the distinct
not-found signal, 404 with body error: Post not found, and never the generic
500; for an id with a matching row it does not answer 404. -/
theorem c3_not_found_distinct (db : DB) (s : String) (n : Int)
    (hs : pgParseInt4 s = some n) :
    ((∀ p ∈ db.posts, (p.id : Int) ≠ n) →
      getPost db s = .json 404 "Post not found") ∧
    ((∃ p ∈ db.posts, (p.id : Int) = n) →
      getPost db s ≠ .json 404 "Post not found") := by
  constructor
  · intro habs
    have hf : db.posts.find? (fun p => ((p.id : Int) == n)) = none :=
      List.find?_eq_none.mpr (fun x hx => by simpa using habs x hx)
    simp [getPost, hs, hf]
  · rintro ⟨p, hpmem, hpid⟩ hcontra
    cases hf : db.posts.find? (fun q => ((q.id : Int) == n)) with
    | some row => simp [getPost, hs, hf] at hcontra
    | none =>
      have := List.find?_eq_none.mp hf p hpmem
      simp [hpid] at this

/-- Witness for C3 at a concrete store and id. -/
theorem c3_witness :
    pgParseInt4 "2" = some 2 ∧
    (∀ p ∈ dbOnePost.posts, (p.id : Int) ≠ 2) ∧
    getPost dbOnePost "2" = .json 404 "Post not found" :=
  ⟨by decide, by decide,
    (c3_not_found_distinct dbOnePost "2" 2 (by decide)).1 (by decide)⟩

/-- C9: a path parameter that is not the decimal text of an integer is passed
verbatim to the store query, which fails, and the detail handler answers the
generic 500 carrying the store error text, never 404; conversely a 404
answer can arise only when the parameter parsed as an integer and no posts
row matched it. -/
theorem c9_non_integer_id (db : DB) (s : String) :
    (pgParseInt4 s = none → getPost db s = .json 500 pgIntErrorMsg) ∧
    (∀ msg, getPost db s = .json 404 msg →
      ∃ n, pgParseInt4 s = some n ∧ ∀ p ∈ db.posts, (p.id : Int) ≠ n) := by
  constructor
  · intro hn; simp [getPost, hn]
  · intro msg h
    cases hn : pgParseInt4 s with
    | none => simp [getPost, hn] at h
    | some n =>
      cases hf : db.posts.find? (fun q => ((q.id : Int) == n)) with
      | some row => simp [getPost, hn, hf] at h
      | none =>
        refine ⟨n, rfl, ?_⟩
        intro p hp hpe
        have := List.find?_eq_none.mp hf p hp
        simp [hpe] at this

/-- Witness for C9 at a concrete store and a non-numeric parameter. -/
theorem c9_witness :
    pgParseInt4 "abc" = none ∧
    getPost dbOnePost "abc" = .json 500 pgIntErrorMsg :=
  ⟨by decide, (c9_non_integer_id dbOnePost "abc").1 (by decide)⟩

/-- C6: submitting a comment against an id that matches no posts row fails
with the store-level foreign-key error, the handler answers 500, and the
store (in particular the comments table) is unchanged. -/
theorem c6_fk_rejects_orphan (db : DB) (s content : String) (now : Nat)
    (n : Int) (hs : pgParseInt4 s = some n)
    (habs : ∀ p ∈ db.posts, (p.id : Int) ≠ n) :
    createComment db s content now = (.json 500 pgFkMsg, db) := by
  have hany : db.posts.any (fun p => ((p.id : Int) == n)) = false := by
    rw [Bool.eq_false_iff]
    intro hcon
    obtain ⟨p, hp, hpe⟩ := List.any_eq_true.mp hcon
    exact habs p hp (by simpa using hpe)
  simp [createComment, hs, hany]

/-- Witness for C6 at a concrete store and missing id. -/
theorem c6_witness :
    pgParseInt4 "99" = some 99 ∧
    (∀ p ∈ dbOnePost.posts, (p.id : Int) ≠ 99) ∧
    createComment dbOnePost "99" "hello" 7 = (.json 500 pgFkMsg, dbOnePost) :=
  ⟨by decide, by decide,
    c6_fk_rejects_orphan dbOnePost "99" "hello" 7 99 (by decide) (by decide)⟩

/-- Sequencing after a successful step runs the continuation. -/
theorem except_bind_ok {ε α β : Type} (a : α) (f : α → Except ε β) :
    (Except.ok a >>= f) = f a := rfl

/-- Sequencing after a failed step propagates the failure. -/
theorem except_bind_error {ε α β : Type} (e : ε) (f : α → Except ε β) :
    ((Except.error e : Except ε α) >>= f) = .error e := rfl

/-- C7: when both tables already exist, schema initialization returns with no
error and leaves the catalog exactly as it was; and from any starting
catalog, running it a second time on the result changes nothing, so two runs
in succession are equivalent to one. -/
theorem c7_schema_idempotent :
    (∀ cat : Catalog, tableExists cat "posts" = true →
      tableExists cat "comments" = true → createTables cat = .ok cat) ∧
    (∀ cat cat2 : Catalog, createTables cat = .ok cat2 →
      createTables cat2 = .ok cat2) := by
  have hboth : ∀ cat : Catalog, tableExists cat "posts" = true →
      tableExists cat "comments" = true → createTables cat = .ok cat := by
    intro cat h1 h2
    simp [createTables, createTable, except_bind_ok, h1, h2]
  refine ⟨hboth, ?_⟩
  intro cat cat2 h
  cases h1 : createTable cat "posts" postsTableQuery with
  | error e => simp [createTables, h1, except_bind_error] at h
  | ok c1 =>
    have hc1 := createTable_ok_exists cat "posts" postsTableQuery h1
    cases h2 : createTable c1 "comments" commentsTableQuery with
    | error e => simp [createTables, h1, except_bind_ok, h2] at h
    | ok c2 =>
      have hc2 := createTable_ok_exists c1 "comments" commentsTableQuery h2
      have hcat2 : c2 = cat2 := by simpa [createTables, h1, except_bind_ok, h2] using h
      rw [← hcat2]
      exact hboth c2 (hc2.2 "posts" hc1.1) hc2.1

/-- Witness for C7 at a catalog already holding both tables. -/
theorem c7_witness :
    tableExists ⟨[("posts", postsTableQuery), ("comments", commentsTableQuery)]⟩
      "posts" = true ∧
    tableExists ⟨[("posts", postsTableQuery), ("comments", commentsTableQuery)]⟩
      "comments" = true ∧
    createTables ⟨[("posts", postsTableQuery), ("comments", commentsTableQuery)]⟩ =
      .ok ⟨[("posts", postsTableQuery), ("comments", commentsTableQuery)]⟩ :=
  ⟨by decide, by decide,
    c7_schema_idempotent.1
      ⟨[("posts", postsTableQuery), ("comments", commentsTableQuery)]⟩
      (by decide) (by decide)⟩

/-- C8: an empty link parses successfully to an empty host, so a store whose
posts all carry empty links is listed without error and every rendered post
has an empty Host field.  (The per-post derivation is stated separately from
the whole-store listing because a different post with an unparsable link
aborts the whole listing; see C2.) -/
theorem c8_empty_link_tolerated :
    deriveHost "" = HostResult.ok "" ∧
    ∀ db : DB, (∀ p ∈ db.posts, p.link = "") →
      ∃ ps, listPosts db = .html ps ∧ ps.length = db.posts.length ∧
        ∀ q ∈ ps, q.Host = "" := by
  have hderive : deriveHost "" = HostResult.ok "" := by decide
  refine ⟨hderive, ?_⟩
  intro db hall
  have hlist := listPosts_of_no_panic db (fun r hr => by
    rw [hall r hr, hderive]; simp)
  refine ⟨_, hlist, ?_, ?_⟩
  · rw [List.length_map]
    exact (List.perm_insertionSort postsDescOrder db.posts).length_eq
  · intro q hq
    obtain ⟨r, hr, rfl⟩ := List.mem_map.mp hq
    have hrl : r.link = "" :=
      hall r ((List.perm_insertionSort postsDescOrder db.posts).mem_iff.mp hr)
    simp [viewPost, hrl, hderive]

/-- Witness for C8 at a concrete store with an empty link. -/
theorem c8_witness :
    (∀ p ∈ dbOnePost.posts, p.link = "") ∧
    (deriveHost "" = HostResult.ok "" ∧
      ∃ ps, listPosts dbOnePost = .html ps ∧
        ps.length = dbOnePost.posts.length ∧ ∀ q ∈ ps, q.Host = "") :=
  ⟨by decide,
    ⟨c8_empty_link_tolerated.1, c8_empty_link_tolerated.2 dbOnePost (by decide)⟩⟩

/-- C4: with pairwise-distinct creation times, the list route renders the
posts in strictly descending creation-time order (and renders exactly the
stored posts); and a successful detail response carries the comments of the
post in descending creation-time order (and exactly the stored comments of
that post). -/
theorem c4_listing_order :
    (∀ (db : DB) (ps : List Post), listPosts db = .html ps →
      (db.posts.map (fun r => r.createdAt)).Nodup →
      List.Pairwise (fun a b : Nat => b < a) (ps.map (fun p => p.CreatedAt)) ∧
      (ps.map (fun p => (p.ID, p.CreatedAt))).Perm
        (db.posts.map (fun r => (r.id, r.createdAt)))) ∧
    (∀ (db : DB) (s : String) (p : Post), getPost db s = .html p →
      List.Pairwise (fun a b : Nat => b ≤ a)
        (p.Comments.map (fun c => c.CreatedAt)) ∧
      (p.Comments.map (fun c => (c.ID, c.CreatedAt))).Perm
        ((db.comments.filter (fun c => c.postId == p.ID)).map
          (fun c => (c.id, c.createdAt)))) := by
  constructor
  · intro db ps h hnodup
    have hspec := listPosts_html_spec db ps h
    have hperm := List.perm_insertionSort postsDescOrder db.posts
    have hsorted : List.Pairwise postsDescOrder
        (List.insertionSort postsDescOrder db.posts) :=
      List.sorted_insertionSort postsDescOrder db.posts
    have hnodup2 : ((List.insertionSort postsDescOrder db.posts).map
        (fun r => r.createdAt)).Nodup :=
      ((hperm.map (fun r => r.createdAt)).nodup_iff).mpr hnodup
    have hne : (List.insertionSort postsDescOrder db.posts).Pairwise
        (fun a b => a.createdAt ≠ b.createdAt) := List.pairwise_map.mp hnodup2
    have hstrict : (List.insertionSort postsDescOrder db.posts).Pairwise
        (fun a b => b.createdAt < a.createdAt) :=
      (hsorted.and hne).imp (fun hab =>
        Nat.lt_of_le_of_ne hab.1 (fun heq => hab.2 heq.symm))
    constructor
    · rw [hspec, List.map_map]
      exact List.pairwise_map.mpr hstrict
    · rw [hspec, List.map_map]
      exact hperm.map (fun r => (r.id, r.createdAt))
  · intro db s p h
    obtain ⟨n, row, hn, hf, hrowmem, hrowid, hp⟩ := getPost_html_spec db s p h
    have hcomm : p.Comments = (List.insertionSort commentsDescOrder
        (db.comments.filter (fun c => ((c.postId : Int) == n)))).map
        (viewComment row.id) := by rw [hp]
    have hpid : p.ID = row.id := by rw [hp]
    have hfc : db.comments.filter (fun c => ((c.postId : Int) == n)) =
        db.comments.filter (fun c => c.postId == row.id) :=
      List.filter_congr (fun c _ => by rw [← hrowid, natCast_beq_natCast])
    have hsortedC : List.Pairwise commentsDescOrder
        (List.insertionSort commentsDescOrder
          (db.comments.filter (fun c => ((c.postId : Int) == n)))) :=
      List.sorted_insertionSort commentsDescOrder _
    have hpermC := List.perm_insertionSort commentsDescOrder
      (db.comments.filter (fun c => ((c.postId : Int) == n)))
    constructor
    · rw [hcomm, List.map_map]
      exact List.pairwise_map.mpr hsortedC
    · rw [hcomm, hpid, ← hfc, List.map_map]
      exact hpermC.map (fun c => (c.id, c.createdAt))

/-- The list the list route renders for the two-post store. -/
def psTwoSorted : List Post :=
  [⟨2, "b", "", "", "y", 5, 0, []⟩, ⟨1, "a", "", "", "x", 3, 0, []⟩]

/-- The post view the detail route renders for the commented store. -/
def postDetailOne : Post :=
  ⟨1, "a", "", "", "x", 0, 0, [⟨2, "world", 1, 7⟩, ⟨1, "hello", 1, 2⟩]⟩

/-- Witness for C4 at the two concrete stores. -/
theorem c4_witness :
    (listPosts dbTwoPosts = .html psTwoSorted ∧
      (dbTwoPosts.posts.map (fun r => r.createdAt)).Nodup ∧
      List.Pairwise (fun a b : Nat => b < a)
        (psTwoSorted.map (fun p => p.CreatedAt)) ∧
      (psTwoSorted.map (fun p => (p.ID, p.CreatedAt))).Perm
        (dbTwoPosts.posts.map (fun r => (r.id, r.createdAt)))) ∧
    (getPost dbWithComments "1" = .html postDetailOne ∧
      List.Pairwise (fun a b : Nat => b ≤ a)
        (postDetailOne.Comments.map (fun c => c.CreatedAt)) ∧
      (postDetailOne.Comments.map (fun c => (c.ID, c.CreatedAt))).Perm
        ((dbWithComments.comments.filter
          (fun c => c.postId == postDetailOne.ID)).map
          (fun c => (c.id, c.createdAt)))) := by
  constructor
  · have happ := c4_listing_order.1 dbTwoPosts psTwoSorted (by decide) (by decide)
    exact ⟨by decide, by decide, happ.1, happ.2⟩
  · have happ := c4_listing_order.2 dbWithComments "1" postDetailOne (by decide)
    exact ⟨by decide, happ.1, happ.2⟩

/-- C5: starting from a store in which a post exists and has no comments,
submitting a batch of N comments against its id and then listing gives that
post a CommentCount of exactly N (stated for the rendered entry of that id;
the listing also contains such an entry whenever it renders at all). -/
theorem c5_comment_count (db : DB) (pid : Nat) (s : String)
    (items : List (String × Nat))
    (hpost : ∃ p ∈ db.posts, p.id = pid)
    (hzero : countComments db pid = 0)
    (hs : pgParseInt4 s = some (pid : Int)) :
    ∀ ps, listPosts (runCreateComments db s items) = .html ps →
      (∃ q ∈ ps, q.ID = pid ∧ q.CommentCount = items.length) ∧
      (∀ q ∈ ps, q.ID = pid → q.CommentCount = items.length) := by
  intro ps hps
  obtain ⟨hposts, hcnt⟩ := runCreateComments_spec pid s hs items db hpost
  rw [hzero, Nat.zero_add] at hcnt
  have hspec := listPosts_html_spec (runCreateComments db s items) ps hps
  constructor
  · obtain ⟨p, hpmem, hpid⟩ := hpost
    have hpmem2 : p ∈ List.insertionSort postsDescOrder
        (runCreateComments db s items).posts := by
      rw [hposts]
      exact (List.perm_insertionSort postsDescOrder db.posts).mem_iff.mpr hpmem
    refine ⟨viewPost (runCreateComments db s items) p, ?_, ?_, ?_⟩
    · rw [hspec]
      exact List.mem_map_of_mem (viewPost (runCreateComments db s items)) hpmem2
    · exact hpid
    · show countComments (runCreateComments db s items) p.id = items.length
      rw [hpid, hcnt]
  · intro q hq hqid
    rw [hspec] at hq
    obtain ⟨r, hr, rfl⟩ := List.mem_map.mp hq
    have hrid : r.id = pid := hqid
    show countComments (runCreateComments db s items) r.id = items.length
    rw [hrid, hcnt]

/-- Witness for C5: two comments against the one-post store. -/
theorem c5_witness :
    (∃ p ∈ dbOnePost.posts, p.id = 1) ∧
    countComments dbOnePost 1 = 0 ∧
    pgParseInt4 "1" = some 1 ∧
    listPosts (runCreateComments dbOnePost "1" [("hi", 1), ("yo", 2)]) =
      .html [⟨1, "t", "", "", "c", 0, 2, []⟩] ∧
    ((∃ q ∈ ([⟨1, "t", "", "", "c", 0, 2, []⟩] : List Post),
        q.ID = 1 ∧ q.CommentCount = 2) ∧
      (∀ q ∈ ([⟨1, "t", "", "", "c", 0, 2, []⟩] : List Post),
        q.ID = 1 → q.CommentCount = 2)) :=
  ⟨by decide, by decide, by decide, by decide,
    c5_comment_count dbOnePost 1 "1" [("hi", 1), ("yo", 2)]
      (by decide) (by decide) (by decide)
      [⟨1, "t", "", "", "c", 0, 2, []⟩] (by decide)⟩

/-- C10: in a successful detail response every rendered comment carries the
PostID of the rendered post, and corresponds to a stored comment row whose
parent is exactly that post. -/
theorem c10_comments_belong (db : DB) (s : String) (p : Post)
    (h : getPost db s = .html p) :
    ∀ c ∈ p.Comments, c.PostID = p.ID ∧
      ∃ row ∈ db.comments, row.postId = p.ID ∧ row.id = c.ID ∧
        row.content = c.Content ∧ row.createdAt = c.CreatedAt := by
  obtain ⟨n, prow, hn, hf, hmem, hrowid, hp⟩ := getPost_html_spec db s p h
  have hcomm : p.Comments = (List.insertionSort commentsDescOrder
      (db.comments.filter (fun c => ((c.postId : Int) == n)))).map
      (viewComment prow.id) := by rw [hp]
  have hpid : p.ID = prow.id := by rw [hp]
  intro c hc
  rw [hcomm] at hc
  obtain ⟨crow, hcrow, rfl⟩ := List.mem_map.mp hc
  have hcrow2 : crow ∈ db.comments.filter (fun q => ((q.postId : Int) == n)) :=
    (List.perm_insertionSort commentsDescOrder _).mem_iff.mp hcrow
  obtain ⟨hcmem, hcpred⟩ := List.mem_filter.mp hcrow2
  have hcpid : (crow.postId : Int) = n := by simpa using hcpred
  have hcpid2 : crow.postId = prow.id := by
    have hcast : (crow.postId : Int) = (prow.id : Int) := by rw [hcpid, hrowid]
    exact_mod_cast hcast
  refine ⟨by rw [hpid]; rfl, crow, hcmem, by rw [hpid]; exact hcpid2, rfl, rfl, rfl⟩

/-- Witness for C10 at the commented store. -/
theorem c10_witness :
    getPost dbWithComments "1" = .html postDetailOne ∧
    ∀ c ∈ postDetailOne.Comments, c.PostID = postDetailOne.ID ∧
      ∃ row ∈ dbWithComments.comments, row.postId = postDetailOne.ID ∧
        row.id = c.ID ∧ row.content = c.Content ∧ row.createdAt = c.CreatedAt :=
  ⟨by decide, c10_comments_belong dbWithComments "1" postDetailOne (by decide)⟩

/-- C1 counterexample: in the empty store, creating the post with title T,
link http://example.com/x and content C and then requesting it through the
detail route returns the identical title, link and content, but the Host
field of the response is the empty string, not example.com: the detail
handler never derives Host (only the list handler does). -/
theorem c1_counterexample :
    getPost ((createPost ⟨[], [], 1, 1⟩ "T" "C" "http://example.com/x" 0).2) "1" =
      PostDetailResponse.html ⟨1, "T", "http://example.com/x", "", "C", 0, 0, []⟩ ∧
    ("" : String) ≠ "example.com" := by decide

/-- C1 as amended: a post created through the create route with title T, link
http://example.com/x and content C is retrievable through the detail route
with identical title, link and content, but the Host field of the detail
response is the empty string (the detail handler never assigns it); the host
example.com derived from the link appears on the entry of that post in the
list response instead. -/
theorem c1_roundtrip_amended (db : DB) (now : Nat) (s : String)
    (hwf : ∀ p ∈ db.posts, p.id < db.nextPostId)
    (hs : pgParseInt4 s = some (db.nextPostId : Int))
    (hlinks : ∀ q ∈ db.posts, deriveHost q.link ≠ .nilPanic) :
    ∃ p, getPost (createPost db "T" "C" "http://example.com/x" now).2 s =
        .html p ∧
      p.Title = "T" ∧ p.Link = "http://example.com/x" ∧ p.Content = "C" ∧
      p.Host = "" ∧
      ∃ ps, listPosts (createPost db "T" "C" "http://example.com/x" now).2 =
          .html ps ∧
        ∃ q ∈ ps, q.ID = db.nextPostId ∧ q.Host = "example.com" := by
  have hlen : ("T".length > 255 || "http://example.com/x".length > 255) = false := by
    decide
  have hdb2 : (createPost db "T" "C" "http://example.com/x" now).2 =
      { db with
          posts := db.posts ++
            [⟨db.nextPostId, "T", "http://example.com/x", "C", now⟩],
          nextPostId := db.nextPostId + 1 } := by
    simp [createPost, hlen]
  have hpredfalse : ∀ a ∈ db.posts,
      (fun p : PostRow => ((p.id : Int) == (db.nextPostId : Int))) a = false := by
    intro a ha
    show ((a.id : Int) == (db.nextPostId : Int)) = false
    rw [natCast_beq_natCast]
    exact beq_eq_false_iff_ne.mpr (Nat.ne_of_lt (hwf a ha))
  have hfind : List.find? (fun p => ((p.id : Int) == (db.nextPostId : Int)))
      (db.posts ++ [⟨db.nextPostId, "T", "http://example.com/x", "C", now⟩]) =
      some ⟨db.nextPostId, "T", "http://example.com/x", "C", now⟩ := by
    rw [find?_append_of_none _ db.posts _ hpredfalse]
    simp [List.find?]
  have hget : getPost (createPost db "T" "C" "http://example.com/x" now).2 s =
      .html { ID := db.nextPostId, Title := "T", Link := "http://example.com/x",
              Host := "", Content := "C", CreatedAt := now, CommentCount := 0,
              Comments := (List.insertionSort commentsDescOrder
                (db.comments.filter
                  (fun c => ((c.postId : Int) == (db.nextPostId : Int))))).map
                (viewComment db.nextPostId) } := by
    rw [hdb2]
    simp [getPost, hs, hfind]
  have hd : deriveHost "http://example.com/x" = HostResult.ok "example.com" := by
    decide
  have hall2 : ∀ r ∈ db.posts ++
      [(⟨db.nextPostId, "T", "http://example.com/x", "C", now⟩ : PostRow)],
      deriveHost r.link ≠ .nilPanic := by
    intro r hr
    rcases List.mem_append.mp hr with h1 | h2
    · exact hlinks r h1
    · have hreq : r = ⟨db.nextPostId, "T", "http://example.com/x", "C", now⟩ := by
        simpa using h2
      rw [hreq]
      show deriveHost "http://example.com/x" ≠ .nilPanic
      rw [hd]
      simp
  have hlist : listPosts (createPost db "T" "C" "http://example.com/x" now).2 =
      .html ((List.insertionSort postsDescOrder (db.posts ++
          [⟨db.nextPostId, "T", "http://example.com/x", "C", now⟩])).map
        (viewPost { db with
          posts := db.posts ++
            [⟨db.nextPostId, "T", "http://example.com/x", "C", now⟩],
          nextPostId := db.nextPostId + 1 })) := by
    rw [hdb2]
    exact listPosts_of_no_panic _ hall2
  refine ⟨_, hget, rfl, rfl, rfl, rfl, _, hlist, ?_⟩
  have hmemrow : (⟨db.nextPostId, "T", "http://example.com/x", "C", now⟩ : PostRow) ∈
      db.posts ++ [⟨db.nextPostId, "T", "http://example.com/x", "C", now⟩] := by
    simp
  have hmemsort : (⟨db.nextPostId, "T", "http://example.com/x", "C", now⟩ : PostRow) ∈
      List.insertionSort postsDescOrder (db.posts ++
        [⟨db.nextPostId, "T", "http://example.com/x", "C", now⟩]) :=
    (List.perm_insertionSort postsDescOrder _).mem_iff.mpr hmemrow
  refine ⟨viewPost _ ⟨db.nextPostId, "T", "http://example.com/x", "C", now⟩,
    List.mem_map_of_mem _ hmemsort, rfl, ?_⟩
  show (match deriveHost "http://example.com/x" with
    | .ok h => h | .nilPanic => "") = "example.com"
  rw [hd]

/-- Witness for the amended C1 in the empty store. -/
theorem c1_witness :
    (∀ p ∈ (⟨[], [], 1, 1⟩ : DB).posts, p.id < 1) ∧
    pgParseInt4 "1" = some 1 ∧
    (∀ q ∈ (⟨[], [], 1, 1⟩ : DB).posts, deriveHost q.link ≠ .nilPanic) ∧
    (∃ p, getPost (createPost ⟨[], [], 1, 1⟩ "T" "C" "http://example.com/x" 0).2
        "1" = .html p ∧
      p.Title = "T" ∧ p.Link = "http://example.com/x" ∧ p.Content = "C" ∧
      p.Host = "" ∧
      ∃ ps, listPosts (createPost ⟨[], [], 1, 1⟩ "T" "C"
          "http://example.com/x" 0).2 = .html ps ∧
        ∃ q ∈ ps, q.ID = 1 ∧ q.Host = "example.com") :=
  ⟨by decide, by decide, by decide,
    c1_roundtrip_amended ⟨[], [], 1, 1⟩ 0 "1" (by decide) (by decide) (by decide)⟩
